import Mathlib

/-!
Shallow embedding of Botan's generic algorithm registry
(`src/lib/algo_base/algo_registry.h`, botan 1.11 era).

Modelling conventions:
* A C++ `T*` result of a maker is `Option α` (`none` = `nullptr`).
* A thrown `std::exception` with message `e.what()` is `Except.error e`;
  normal return of pointer `p` is `Except.ok p`.
* `Algo_Registry<T>` state is the table `m_maker_fns`, modelled as an
  association list `basename -> (provider -> maker)`.  The C++ table is a
  `std::unordered_map`, whose iteration order is unspecified; the model
  fixes one admissible order (existing keys keep their position, new keys
  are appended), so `begin()` is the head of the list.
* The process-wide singleton and its mutation are modelled by explicit
  state passing: each member function takes the registry value, and `add`
  returns the updated registry.
-/

namespace BotanReg

/-- An algorithm specification, as the registry consumes it
(`T::Spec`, i.e. `SCAN_Name`): base name, ordered string arguments and
the canonical textual form `as_string`.  The parser producing it is
outside the registry. -/
structure Spec where
  algo_name : String
  args : List String
  as_string : String

/-- Modelled from the spec: `Specification.argument(i) -> string` fails if
the position is absent (the parser type is not part of this core; the
registry only consumes this accessor).  The failure is the thrown
exception of the required-argument accessor. -/
def Spec.arg (s : Spec) (i : Nat) : Except String String :=
  match s.args.get? i with
  | some a => Except.ok a
  | none => Except.error ("invalid argument index " ++ toString i ++ " for " ++ s.as_string)

/-- `maker_fn`: `std::function<T* (const Spec&)>`, which may throw. -/
def Maker (α : Type) : Type := Spec → Except String (Option α)

/-- The fallback result of `find_maker`: a function producing a null
pointer (`[](const Spec&) { return nullptr; }`). -/
def defaultMaker {α : Type} : Maker α := fun _ => Except.ok none

/-- Association-list lookup keyed by string equality, modelling
`std::unordered_map::find`. -/
def alookup {β : Type} (l : List (String × β)) (k : String) : Option β :=
  match l with
  | [] => none
  | (k', v) :: rest => if k' = k then some v else alookup rest k

/-- Association-list upsert, modelling `std::unordered_map::operator[]`
followed by assignment: an existing key keeps its position and gets the
updated value, an absent key is appended (one admissible iteration order
of the unordered table). -/
def aupdate {β : Type} (l : List (String × β)) (k : String) (f : Option β → β) :
    List (String × β) :=
  match l with
  | [] => [(k, f none)]
  | (k', v) :: rest => if k' = k then (k', f (some v)) :: rest else (k', v) :: aupdate rest k f

/-- `Algo_Registry<T>`: the table `basename -> provider -> maker_fn`.
The mutex only guards this table; it has no other state. -/
structure Algo_Registry (α : Type) where
  m_maker_fns : List (String × List (String × Maker α))

/-- The freshly constructed registry (`Algo_Registry() {}`): empty table. -/
def Algo_Registry.empty {α : Type} : Algo_Registry α := ⟨[]⟩

/-- `Algo_Registry::add`: `if(!m_maker_fns[name][provider])
m_maker_fns[name][provider] = fn;` — store `fn` only when no maker is
registered yet for that (name, provider) pair. -/
def Algo_Registry.add {α : Type} (r : Algo_Registry α) (name provider : String)
    (fn : Maker α) : Algo_Registry α :=
  ⟨aupdate r.m_maker_fns name (fun inner =>
      let inner := inner.getD []
      match alookup inner provider with
      | some _ => inner
      | none => inner ++ [(provider, fn)])⟩

/-- `Algo_Registry::providers`: every provider name registered for
`basename`, in table order; empty if the base name is unknown. -/
def Algo_Registry.providers {α : Type} (r : Algo_Registry α) (basename : String) :
    List String :=
  match alookup r.m_maker_fns basename with
  | some inner => inner.map Prod.fst
  | none => []

/-- `Algo_Registry::find_maker`: look up the base name; with an explicit
provider (non-empty string) select exactly that provider or fall through;
with no provider, both the `size() == 1` branch and the `size() > 1`
branch return `providers.begin()->second`, i.e. the first entry of the
table.  The fallback in all remaining cases is the null-producing maker. -/
def Algo_Registry.find_maker {α : Type} (r : Algo_Registry α) (spec : Spec)
    (provider : String) : Maker α :=
  match alookup r.m_maker_fns spec.algo_name with
  | some makers =>
    if makers.isEmpty then defaultMaker
    else
      if provider ≠ "" then
        match alookup makers provider with
        | some m => m
        | none => defaultMaker
      else
        match makers with
        | (_, m) :: _ => m
        | [] => defaultMaker
  | none => defaultMaker

/-- The single-quote character used in the `make` failure message. -/
def sq : String := String.singleton (Char.ofNat 39)

/-- `Algo_Registry::make`: resolve a maker and invoke it; a throwing
maker is re-signalled as
`runtime_error("Creating " + sq + spec.as_string() + sq + " failed: " + e.what())`. -/
def Algo_Registry.make {α : Type} (r : Algo_Registry α) (spec : Spec)
    (provider : String := "") : Except String (Option α) :=
  match r.find_maker spec provider spec with
  | Except.ok t => Except.ok t
  | Except.error e =>
      Except.error ("Creating " ++ sq ++ spec.as_string ++ sq ++ " failed: " ++ e)

/-- `make_a<T>`: free convenience wrapper forwarding to the registry's
`make` (the singleton is the explicitly passed state here). -/
def make_a {α : Type} (r : Algo_Registry α) (spec : Spec)
    (provider : String := "") : Except String (Option α) :=
  r.make spec provider

/-- `Algo_Registry::Add(basename, fn, provider = "builtin")`: constructing
the handle performs the one `add` call; as a state transformer the handle
is that call. -/
def Algo_Registry.Add {α : Type} (r : Algo_Registry α) (basename : String)
    (fn : Maker α) (provider : String := "builtin") : Algo_Registry α :=
  r.add basename provider fn

/-- `Algo_Registry::Add(cond, basename, fn, provider)`: the conditional
handle registers only when `cond` holds at construction time. -/
def Algo_Registry.Add_cond {α : Type} (r : Algo_Registry α) (cond : Bool)
    (basename : String) (fn : Maker α) (provider : String) : Algo_Registry α :=
  if cond then r.add basename provider fn else r

/-- `make_new_T_1X<T, X>`: read argument 0, resolve it through Family
`X`'s registry (`rX`, with `toSpec` the `Spec`-from-string conversion the
call site performs implicitly), throw `runtime_error(spec.arg(0))` when
that yields a null pointer, otherwise build the `T` from the resolved `X`
(`new T(x.release())`, modelled by the constructor `mkT`). -/
def make_new_T_1X {X T : Type} (rX : Algo_Registry X) (toSpec : String → Spec)
    (mkT : X → T) (spec : Spec) : Except String (Option T) :=
  match spec.arg 0 with
  | Except.error e => Except.error e
  | Except.ok a0 =>
    match rX.make (toSpec a0) with
    | Except.error e => Except.error e
    | Except.ok none => Except.error a0
    | Except.ok (some x) => Except.ok (some (mkT x))

/-- Modelled from the spec: the selection policy the specification
requires for step 4 (no provider hint, two or more providers): consult the
provider-weight function `w` (`static_provider_weight`, declared but not
defined in this core, so `w` is a parameter) for every registered
provider and select the highest-weighted one, breaking remaining weight
ties by lexicographic provider name. -/
def spec_weighted_select {α : Type} (w : String → Nat)
    (provs : List (String × Maker α)) : Option (String × Maker α) :=
  provs.foldl (fun best p =>
    match best with
    | none => some p
    | some b =>
      if w p.1 > w b.1 ∨ (w p.1 = w b.1 ∧ p.1 < b.1) then some p else some b) none

/-- The maker stored for a (base name, provider) pair, if any. -/
def Algo_Registry.maker_at {α : Type} (r : Algo_Registry α) (name provider : String) :
    Option (Maker α) :=
  match alookup r.m_maker_fns name with
  | some inner => alookup inner provider
  | none => none

/-! Concrete fixtures used by witnesses and counterexamples. -/

/-- A maker producing the instance `1`. -/
def m_one : Maker Nat := fun _ => Except.ok (some 1)

/-- A maker producing the instance `2`. -/
def m_two : Maker Nat := fun _ => Except.ok (some 2)

/-- A maker that throws. -/
def m_fail : Maker Nat := fun _ => Except.error "boom"

/-- A concrete specification with base name `X`. -/
def specX : Spec := ⟨"X", [], "X"⟩

/-- Base name `X` registered with provider `aaa` (maker `m_one`) first,
then provider `bbb` (maker `m_two`). -/
def reg_ab : Algo_Registry Nat :=
  (Algo_Registry.empty.add "X" "aaa" m_one).add "X" "bbb" m_two

/-- The same registered set as `reg_ab`, inserted in the other order. -/
def reg_ba : Algo_Registry Nat :=
  (Algo_Registry.empty.add "X" "bbb" m_two).add "X" "aaa" m_one

/-- A provider-weight table preferring `bbb`. -/
def w_ex : String → Nat := fun p => if p = "bbb" then 10 else 1

/-- Base name `X` registered with a single provider whose maker throws. -/
def reg_fail : Algo_Registry Nat := Algo_Registry.empty.add "X" "builtin" m_fail

/-- Base name `X` registered with the single provider `aaa`. -/
def reg_single : Algo_Registry Nat := Algo_Registry.empty.add "X" "aaa" m_one

/-- The `Spec`-from-string conversion a nested `make(spec.arg(0))` call
performs: the string becomes the base name and canonical form. -/
def toSpec0 : String → Spec := fun s => ⟨s, [], s⟩

/-- A concrete `T`-from-`X` constructor for the dependent adapter. -/
def mkT0 : Nat → Nat := fun x => x + 100

/-- An outer specification whose argument 0 names the nested base `Inner`. -/
def specOuter : Spec := ⟨"Outer", ["Inner"], "Outer(Inner)"⟩

/-- A registry for the inner family with `Inner` registered. -/
def reg_inner : Algo_Registry Nat := Algo_Registry.empty.add "Inner" "builtin" m_one

/-! Helper lemmas on the association-list operations. -/

theorem alookup_aupdate_self {β : Type} (l : List (String × β)) (k : String)
    (f : Option β → β) : alookup (aupdate l k f) k = some (f (alookup l k)) := by
  induction l with
  | nil => simp [aupdate, alookup]
  | cons hd tl ih =>
    obtain ⟨k', v⟩ := hd
    by_cases h : k' = k
    · simp [aupdate, alookup, h]
    · simp [aupdate, alookup, h, ih]

theorem alookup_aupdate_ne {β : Type} (l : List (String × β)) (k k' : String)
    (f : Option β → β) (h : k' ≠ k) : alookup (aupdate l k f) k' = alookup l k' := by
  have hne : ¬ (k = k') := fun hh => h hh.symm
  induction l with
  | nil => simp [aupdate, alookup, hne]
  | cons hd tl ih =>
    obtain ⟨k'', v⟩ := hd
    by_cases hk : k'' = k
    · subst hk
      simp [aupdate, alookup, hne]
    · simp only [aupdate, if_neg hk]
      by_cases hk' : k'' = k'
      · simp [alookup, hk']
      · simp [alookup, hk', ih]

theorem alookup_append_left {β : Type} (l1 l2 : List (String × β)) (k : String)
    (v : β) (h : alookup l1 k = some v) : alookup (l1 ++ l2) k = some v := by
  induction l1 with
  | nil => simp [alookup] at h
  | cons hd tl ih =>
    obtain ⟨k', v'⟩ := hd
    by_cases hk : k' = k
    · simp_all [alookup]
    · simp_all [alookup]

theorem alookup_append_right {β : Type} (l1 l2 : List (String × β)) (k : String)
    (h : alookup l1 k = none) : alookup (l1 ++ l2) k = alookup l2 k := by
  induction l1 with
  | nil => simp
  | cons hd tl ih =>
    obtain ⟨k', v'⟩ := hd
    by_cases hk : k' = k
    · simp [alookup, hk] at h
    · simp_all [alookup]

theorem alookup_eq_none_of_not_mem {β : Type} (l : List (String × β)) (k : String)
    (h : k ∉ l.map Prod.fst) : alookup l k = none := by
  induction l with
  | nil => simp [alookup]
  | cons hd tl ih =>
    obtain ⟨k', v⟩ := hd
    simp only [List.map_cons, List.mem_cons] at h
    push_neg at h
    have hne : ¬ (k' = k) := fun hh => h.1 hh.symm
    simp [alookup, hne, ih h.2]

theorem mem_of_alookup_eq_some {β : Type} (l : List (String × β)) (k : String)
    (v : β) (h : alookup l k = some v) : k ∈ l.map Prod.fst := by
  induction l with
  | nil => simp [alookup] at h
  | cons hd tl ih =>
    obtain ⟨k', v'⟩ := hd
    by_cases hk : k' = k
    · simp [hk]
    · simp only [alookup, if_neg hk] at h
      simp [ih h]

theorem aupdate_eq_self {β : Type} (l : List (String × β)) (k : String)
    (f : Option β → β) (v : β) (hl : alookup l k = some v) (hf : f (some v) = v) :
    aupdate l k f = l := by
  induction l with
  | nil => simp [alookup] at hl
  | cons hd tl ih =>
    obtain ⟨k', v'⟩ := hd
    by_cases hk : k' = k
    · subst hk
      simp only [alookup, if_true, eq_self_iff_true, Option.some.injEq] at hl
      subst hl
      simp [aupdate, hf]
    · simp only [alookup, if_neg hk] at hl
      simp [aupdate, hk, ih hl]

/-! Helper lemmas on the registry operations. -/

/-- A pair absent from `providers` has no stored maker. -/
theorem maker_at_eq_none_of_not_mem {α : Type} (r : Algo_Registry α) (n p : String)
    (h : p ∉ r.providers n) : r.maker_at n p = none := by
  unfold Algo_Registry.maker_at
  cases hb : alookup r.m_maker_fns n with
  | none => rfl
  | some inner =>
    simp only [Algo_Registry.providers, hb] at h
    exact alookup_eq_none_of_not_mem inner p h

/-- After `add`, the pair holds its previous maker if any, else the new one. -/
theorem maker_at_add_self {α : Type} (r : Algo_Registry α) (n p : String)
    (f : Maker α) : (r.add n p f).maker_at n p = some ((r.maker_at n p).getD f) := by
  unfold Algo_Registry.maker_at Algo_Registry.add
  simp only [alookup_aupdate_self]
  cases hb : alookup r.m_maker_fns n with
  | none => simp [alookup]
  | some inner =>
    simp only [Option.getD_some]
    cases hin : alookup inner p with
    | none =>
      simp only [hin, Option.getD_none]
      rw [alookup_append_right inner [(p, f)] p hin]
      simp [alookup]
    | some m =>
      simp only [hin, Option.getD_some]

/-- Registering a fresh pair stores exactly the supplied maker. -/
theorem maker_at_add_fresh {α : Type} (r : Algo_Registry α) (n p : String)
    (f : Maker α) (h : p ∉ r.providers n) : (r.add n p f).maker_at n p = some f := by
  rw [maker_at_add_self, maker_at_eq_none_of_not_mem r n p h]
  rfl

/-- `add` for a pair that already holds a maker changes nothing. -/
theorem add_eq_self_of_present {α : Type} (r : Algo_Registry α) (n p : String)
    (f : Maker α) (m : Maker α) (h : r.maker_at n p = some m) : r.add n p f = r := by
  unfold Algo_Registry.maker_at at h
  cases hb : alookup r.m_maker_fns n with
  | none => simp [hb] at h
  | some inner =>
    simp only [hb] at h
    unfold Algo_Registry.add
    cases r with
    | mk tbl =>
      simp only [Algo_Registry.mk.injEq]
      exact aupdate_eq_self tbl n _ inner hb (by simp [h])

/-- With an explicit (non-empty) provider, `find_maker` returns exactly the
maker stored for that pair. -/
theorem find_maker_explicit {α : Type} (r : Algo_Registry α) (spec : Spec)
    (p : String) (m : Maker α) (hp : p ≠ "")
    (h : r.maker_at spec.algo_name p = some m) : r.find_maker spec p = m := by
  unfold Algo_Registry.maker_at at h
  cases hb : alookup r.m_maker_fns spec.algo_name with
  | none => simp [hb] at h
  | some inner =>
    simp only [hb] at h
    unfold Algo_Registry.find_maker
    have hne : inner.isEmpty = false := by
      cases inner with
      | nil => simp [alookup] at h
      | cons hd tl => rfl
    simp [hb, hne, hp, h]

/-- A `find_maker` fallback makes `make` return the null instance. -/
theorem make_eq_ok_none_of_default {α : Type} (r : Algo_Registry α) (spec : Spec)
    (provider : String) (h : r.find_maker spec provider = defaultMaker) :
    r.make spec provider = Except.ok none := by
  simp [Algo_Registry.make, h, defaultMaker]

/-- With an explicit (non-empty) provider not stored for the base name,
`find_maker` falls back to the null-producing maker. -/
theorem find_maker_explicit_none {α : Type} (r : Algo_Registry α) (spec : Spec)
    (p : String) (hp : p ≠ "") (h : r.maker_at spec.algo_name p = none) :
    r.find_maker spec p = defaultMaker := by
  unfold Algo_Registry.maker_at at h
  unfold Algo_Registry.find_maker
  cases hb : alookup r.m_maker_fns spec.algo_name with
  | none => rfl
  | some inner =>
    simp only [hb] at h
    cases inner with
    | nil => simp
    | cons hd tl => simp [hp, h]

/-- `add` preserves every stored maker. -/
theorem maker_at_add_preserve {α : Type} (r : Algo_Registry α) (n p n' p' : String)
    (f m : Maker α) (h : r.maker_at n' p' = some m) :
    (r.add n p f).maker_at n' p' = some m := by
  unfold Algo_Registry.maker_at at h ⊢
  unfold Algo_Registry.add
  by_cases hn : n' = n
  · subst hn
    simp only [alookup_aupdate_self]
    cases hb : alookup r.m_maker_fns n' with
    | none => simp [hb] at h
    | some inner =>
      simp only [hb] at h
      simp only [Option.getD_some]
      cases hin : alookup inner p with
      | some _ => simpa [hin] using h
      | none =>
        simp only [hin]
        exact alookup_append_left inner [(p, f)] p' m h
  · simp only [alookup_aupdate_ne r.m_maker_fns n n' _ hn]
    exact h

/-- A pair holding a maker is listed by `providers`. -/
theorem mem_providers_of_maker_at {α : Type} (r : Algo_Registry α) (n p : String)
    (m : Maker α) (h : r.maker_at n p = some m) : p ∈ r.providers n := by
  unfold Algo_Registry.maker_at at h
  cases hb : alookup r.m_maker_fns n with
  | none => simp [hb] at h
  | some inner =>
    simp only [hb] at h
    simp [Algo_Registry.providers, hb, mem_of_alookup_eq_some inner p m h]

/-! Claim theorems. -/

/-- C1: with two providers registered for `X` and no provider hint, the
code returns the first table entry without consulting the provider-weight
function: on `reg_ab` it selects `aaa`'s maker (result `1`) although the
weight table `w_ex` ranks `bbb` strictly higher (and `bbb`'s maker
returns `2`); and on `reg_ba`, which holds the same registered set in the
other insertion order, it selects `bbb`'s maker instead — so the
selection is neither weight-based nor a function of the registered set
only. -/
theorem C1_no_weight_selection :
    reg_ab.make specX = Except.ok (some 1)
    ∧ ((spec_weighted_select w_ex
          ((alookup reg_ab.m_maker_fns "X").getD [])).map Prod.fst = some "bbb")
    ∧ m_two specX = Except.ok (some 2)
    ∧ reg_ab.providers "X" = ["aaa", "bbb"]
    ∧ reg_ba.providers "X" = ["bbb", "aaa"]
    ∧ reg_ba.make specX = Except.ok (some 2) := by
  refine ⟨by rfl, by rfl, by rfl, by rfl, by rfl, by rfl⟩

/-- C5: the dependent-construction adapter resolves argument 0 through the
inner family's registry: a Not Available nested resolution becomes a
failure naming exactly the argument-0 string, and a successful nested
resolution yields the outer instance built from the resolved inner
instance. -/
theorem C5_dependent_construction {X T : Type} (rX : Algo_Registry X)
    (toSpec : String → Spec) (mkT : X → T) (spec : Spec) (a0 : String)
    (h0 : spec.arg 0 = Except.ok a0) :
    (rX.make (toSpec a0) = Except.ok none →
        make_new_T_1X rX toSpec mkT spec = Except.error a0)
    ∧ ∀ x : X, rX.make (toSpec a0) = Except.ok (some x) →
        make_new_T_1X rX toSpec mkT spec = Except.ok (some (mkT x)) := by
  constructor
  · intro hna
    simp [make_new_T_1X, h0, hna]
  · intro x hx
    simp [make_new_T_1X, h0, hx]

/-- Witness for C5: with the inner base unregistered the adapter fails
naming `Inner`; with it registered the adapter wraps the resolved inner
instance. -/
theorem C5_dependent_construction_witness :
    make_new_T_1X (Algo_Registry.empty : Algo_Registry Nat) toSpec0 mkT0 specOuter
        = Except.error "Inner"
    ∧ make_new_T_1X reg_inner toSpec0 mkT0 specOuter = Except.ok (some 101) := by
  constructor
  · exact (C5_dependent_construction Algo_Registry.empty toSpec0 mkT0 specOuter
      "Inner" (by rfl)).1 (by rfl)
  · exact (C5_dependent_construction reg_inner toSpec0 mkT0 specOuter
      "Inner" (by rfl)).2 1 (by rfl)

/-- C7: the registration handle is exactly one `add` call under provider
`builtin` when none is supplied (storing the maker for a fresh pair), and
the conditional handle is that call when the condition holds and the
identity otherwise. -/
theorem C7_registration_handle {α : Type} (r : Algo_Registry α) (basename : String)
    (fn : Maker α) (p : String) (cond : Bool)
    (hfresh : "builtin" ∉ r.providers basename) :
    r.Add basename fn = r.add basename "builtin" fn
    ∧ (r.Add basename fn).maker_at basename "builtin" = some fn
    ∧ r.Add_cond cond basename fn p = (if cond then r.add basename p fn else r) := by
  refine ⟨rfl, ?_, rfl⟩
  exact maker_at_add_fresh r basename "builtin" fn hfresh

/-- Witness for C7: constructing the handle on the empty registry stores
the maker under `builtin`; the false-conditioned handle registers
nothing. -/
theorem C7_registration_handle_witness :
    (Algo_Registry.empty : Algo_Registry Nat).Add "X" m_one
        = Algo_Registry.empty.add "X" "builtin" m_one
    ∧ ((Algo_Registry.empty : Algo_Registry Nat).Add "X" m_one).maker_at "X" "builtin"
        = some m_one
    ∧ (Algo_Registry.empty : Algo_Registry Nat).Add_cond false "X" m_one "acc"
        = (if false then Algo_Registry.empty.add "X" "acc" m_one else Algo_Registry.empty) :=
  C7_registration_handle Algo_Registry.empty "X" m_one "acc" false (by decide)

/-- C8: the table is grow-only — registration preserves every stored
maker (nothing is removed or replaced), and a stored pair stays listed by
`providers`; the lookup and construction operations read the table
without producing a new state. -/
theorem C8_grow_only {α : Type} (r : Algo_Registry α) (n p n' p' : String)
    (f m : Maker α) (h : r.maker_at n' p' = some m) :
    (r.add n p f).maker_at n' p' = some m
    ∧ p' ∈ (r.add n p f).providers n' := by
  have hpres := maker_at_add_preserve r n p n' p' f m h
  exact ⟨hpres, mem_providers_of_maker_at _ n' p' m hpres⟩

/-- Witness for C8: after registering (`Y`, `bbb`), the earlier
(`X`, `aaa`) entry is untouched and still listed. -/
theorem C8_grow_only_witness :
    (reg_single.add "Y" "bbb" m_two).maker_at "X" "aaa" = some m_one
    ∧ "aaa" ∈ (reg_single.add "Y" "bbb" m_two).providers "X" :=
  C8_grow_only reg_single "Y" "bbb" "X" "aaa" m_two m_one (by rfl)

/-- C10: the empty string is the no-hint sentinel — the omitted-provider
call is the `provider = ""` call; an explicit (non-empty) provider
request selects only a maker stored under exactly that provider key (so
a maker registered under the provider name `""`, which `add` accepts,
is unreachable by any explicit request). -/
theorem C10_empty_provider_sentinel {α : Type} (r : Algo_Registry α) (spec : Spec)
    (p n : String) (f : Maker α) (hp : p ≠ "") (hfresh : "" ∉ r.providers n) :
    r.make spec = r.make spec ""
    ∧ (r.find_maker spec p = defaultMaker
        ∨ ∃ m, r.maker_at spec.algo_name p = some m ∧ r.find_maker spec p = m)
    ∧ (r.add n "" f).maker_at n "" = some f := by
  refine ⟨rfl, ?_, maker_at_add_fresh r n "" f hfresh⟩
  cases hm : r.maker_at spec.algo_name p with
  | none => exact Or.inl (find_maker_explicit_none r spec p hp hm)
  | some m => exact Or.inr ⟨m, rfl, find_maker_explicit r spec p m hp hm⟩

/-- Witness for C10: on `reg_ab` the omitted call equals the `""` call,
the unregistered explicit provider `zzz` only reaches the fallback, and a
maker registers fine under the provider name `""`. -/
theorem C10_empty_provider_sentinel_witness :
    (reg_ab.make specX = reg_ab.make specX "")
    ∧ (reg_ab.find_maker specX "zzz" = defaultMaker
        ∨ ∃ m, reg_ab.maker_at specX.algo_name "zzz" = some m
            ∧ reg_ab.find_maker specX "zzz" = m)
    ∧ (reg_ab.add "X" "" m_fail).maker_at "X" "" = some m_fail :=
  C10_empty_provider_sentinel reg_ab specX "zzz" "X" m_fail (by decide) (by decide)

/-- C2: for every spec and provider, if the spec's base name has no entry
in the registry table, or the explicit (non-empty) provider is not among
the base name's registered providers, `make` returns the Not Available
result `Except.ok none` — no fallback to another provider and no
failure. -/
theorem C2_explicit_provider_exact_match {α : Type} (r : Algo_Registry α)
    (spec : Spec) (provider : String)
    (h : alookup r.m_maker_fns spec.algo_name = none
       ∨ (provider ≠ "" ∧ provider ∉ r.providers spec.algo_name)) :
    r.make spec provider = Except.ok none := by
  apply make_eq_ok_none_of_default
  unfold Algo_Registry.find_maker
  rcases h with hb | ⟨hp, hmem⟩
  · simp [hb]
  · cases hb : alookup r.m_maker_fns spec.algo_name with
    | none => simp
    | some inner =>
      have hin : alookup inner provider = none := by
        apply alookup_eq_none_of_not_mem
        simpa [Algo_Registry.providers, hb] using hmem
      cases inner with
      | nil => simp
      | cons hd tl => simp [hp, hin]

/-- Witness for C2: requesting the unregistered provider `zzz` for the
registered base name `X` yields the null instance. -/
theorem C2_explicit_provider_exact_match_witness :
    reg_ab.make specX "zzz" = Except.ok none :=
  C2_explicit_provider_exact_match reg_ab specX "zzz"
    (Or.inr ⟨by decide, by decide⟩)

/-- C3: when the selected maker throws with message `e`, `make` re-throws
exactly one failure whose message embeds the spec's canonical form
`as_string` together with the original cause `e`. -/
theorem C3_make_wraps_maker_failure {α : Type} (r : Algo_Registry α) (spec : Spec)
    (provider e : String) (h : r.find_maker spec provider spec = Except.error e) :
    r.make spec provider
      = Except.error ("Creating " ++ sq ++ spec.as_string ++ sq ++ " failed: " ++ e) := by
  simp [Algo_Registry.make, h]

/-- Witness for C3: the throwing maker registered for `X` surfaces as a
construction failure naming `X` and the cause `boom`. -/
theorem C3_make_wraps_maker_failure_witness :
    reg_fail.make specX "builtin"
      = Except.error ("Creating " ++ sq ++ "X" ++ sq ++ " failed: " ++ "boom") :=
  C3_make_wraps_maker_failure reg_fail specX "builtin" "boom" (by rfl)

/-- C4: a second registration for the same (base name, provider) pair with
a different maker is a complete no-op — the registry state is unchanged —
and an explicit request for that provider still selects the
first-registered maker. -/
theorem C4_first_registration_wins {α : Type} (r : Algo_Registry α) (n p : String)
    (f1 f2 : Maker α) (spec : Spec) (hn : spec.algo_name = n) (hp : p ≠ "")
    (hfresh : p ∉ r.providers n) :
    (r.add n p f1).add n p f2 = r.add n p f1
    ∧ ((r.add n p f1).add n p f2).find_maker spec p = f1 := by
  have hstored : (r.add n p f1).maker_at n p = some f1 :=
    maker_at_add_fresh r n p f1 hfresh
  have heq : (r.add n p f1).add n p f2 = r.add n p f1 :=
    add_eq_self_of_present _ n p f2 f1 hstored
  refine ⟨heq, ?_⟩
  rw [heq]
  refine find_maker_explicit _ spec p f1 hp ?_
  rw [hn]
  exact hstored

/-- Witness for C4: registering `m_two` over the already registered pair
(`X`, `aaa`) changes nothing and `m_one` is still selected. -/
theorem C4_first_registration_wins_witness :
    ((Algo_Registry.empty.add "X" "aaa" m_one).add "X" "aaa" m_two
        = Algo_Registry.empty.add "X" "aaa" m_one)
    ∧ ((Algo_Registry.empty.add "X" "aaa" m_one).add "X" "aaa" m_two).find_maker
        specX "aaa" = m_one :=
  C4_first_registration_wins Algo_Registry.empty "X" "aaa" m_one m_two specX
    rfl (by decide) (by decide)

/-- C6: when exactly one provider is registered for the spec's base name,
the hint-less lookup selects that provider's maker. -/
theorem C6_single_provider_selected {α : Type} (r : Algo_Registry α) (spec : Spec)
    (p : String) (m : Maker α)
    (h : alookup r.m_maker_fns spec.algo_name = some [(p, m)]) :
    r.find_maker spec "" = m ∧ r.providers spec.algo_name = [p] := by
  constructor
  · unfold Algo_Registry.find_maker
    simp [h]
  · simp [Algo_Registry.providers, h]

/-- Witness for C6: with only (`X`, `aaa`) registered, the hint-less
lookup selects `m_one`. -/
theorem C6_single_provider_selected_witness :
    reg_single.find_maker specX "" = m_one ∧ reg_single.providers specX.algo_name = ["aaa"] :=
  C6_single_provider_selected reg_single specX "aaa" m_one (by rfl)

end BotanReg
